import Mathlib

/-!
Verification of the onestop access/approval policy evaluator, training gate,
audit recorder and audit query, shallowly embedded from the TypeScript source
(`src/lib/tools/access.ts`, `src/lib/tools/network.ts`, the training part of
`src/lib/tools/api-keys.ts`, `src/lib/tools/audit-viewer.ts`, the audit logger
module and the CSV helper).

Modelling conventions:
- A CSV row (a JS object produced by Papa.parse with `header: true`) is a list
  of string key-value pairs; `Row.get` returns `none` for an absent key, which
  models JS `undefined` property access.
- Timestamps (`Date.now()`, `new Date().toISOString()`, parsed `new Date(s)`
  values) are modelled as natural numbers (epoch milliseconds); where the
  source stores an ISO string we store `toString` of the number. Comparisons
  between dates in the source become comparisons of these numbers. A date
  string that the source treats as falsy or unparseable (absent, `""`,
  `"null"`, garbage, all of which compare as non-expired in the source) is
  modelled as `none`.
- The random suffix of generated audit event ids is taken as an explicit
  parameter; JSON-serialized `metadata` blobs are modelled as opaque strings.
- External mock collaborators (Slack DMs, Jira tickets, console logging) have
  no effect on any store and are omitted.
-/

namespace OneStop

/-- A parsed CSV row: JS-object-like string key-value pairs. -/
abbrev Row := List (String × String)

/-- JS property access `row[k]`: `none` models `undefined`. -/
def Row.get (r : Row) (k : String) : Option String :=
  (r.find? (fun p => p.1 == k)).map (fun p => p.2)

/-- Split a list of characters on a separator character, JS
`String.prototype.split` style: the empty list yields `[[]]`. -/
def splitChars (c : Char) : List Char → List (List Char)
  | [] => [[]]
  | x :: xs =>
    match splitChars c xs with
    | [] => [[]]
    | h :: t => if x == c then [] :: h :: t else (x :: h) :: t

/-- JS `s.split(sep)` for a one-character separator `sep`. -/
def jsSplit (c : Char) (s : String) : List String :=
  (splitChars c s.data).map (fun l => String.mk l)

/-- JS `s.trim()`: strip whitespace from both ends. -/
def strTrim (s : String) : String :=
  String.mk (((s.data.dropWhile Char.isWhitespace).reverse.dropWhile
    Char.isWhitespace).reverse)

/-- Does `pat` occur as a contiguous substring of `s` (as character lists)? -/
def hasSubstr : List Char → List Char → Bool
  | [], pat => pat.isEmpty
  | s@(_ :: rest), pat => pat.isPrefixOf s || hasSubstr rest pat

/-- JS `s.includes(pat)`. -/
def strContains (s pat : String) : Bool :=
  hasSubstr s.data pat.data

/-- JS `s.startsWith(pre)`. -/
def strStartsWith (s pre : String) : Bool :=
  pre.data.isPrefixOf s.data

/-- JS `s.toLowerCase()` (ASCII). -/
def strLower (s : String) : String :=
  String.mk (s.data.map Char.toLower)

/-- A stored audit event, in the flattened shape written to `audit_log.csv` by
`AuditLogger.flattenEvent`: every column is a string except the timestamp,
which is modelled as epoch milliseconds. Optional fields flatten to `""`,
absent risk scores to `"0"`. -/
structure AuditEvent where
  event_id : String
  timestamp : Nat
  event_type : String
  severity : String
  user_email : String
  user_role : String
  user_team : String
  resource_type : String
  resource_name : String
  resource_id : String
  action : String
  action_result : String
  description : String
  ip_address : String
  user_agent : String
  session_id : String
  request_id : String
  approver_email : String
  approval_status : String
  metadata : String
  before_state : String
  after_state : String
  risk_score : String
  compliance_tags : String
deriving Repr, DecidableEq

/-- A `Partial<AuditEvent>` argument to `AuditLogger.logEvent`: a field set to
`none` models an absent JS object key. `metadata` is the JSON blob as an
opaque string; `risk_score` keeps its numeric type until flattening. -/
structure AuditEventDraft where
  event_id : Option String := none
  timestamp : Option Nat := none
  event_type : Option String := none
  severity : Option String := none
  user_email : Option String := none
  user_role : Option String := none
  user_team : Option String := none
  resource_type : Option String := none
  resource_name : Option String := none
  resource_id : Option String := none
  action : Option String := none
  action_result : Option String := none
  description : Option String := none
  ip_address : Option String := none
  user_agent : Option String := none
  session_id : Option String := none
  request_id : Option String := none
  approver_email : Option String := none
  approval_status : Option String := none
  metadata : Option String := none
  before_state : Option String := none
  after_state : Option String := none
  risk_score : Option Int := none
  compliance_tags : Option (List String) := none
deriving Repr, DecidableEq

/-- JS `arr.join(",")`. -/
def joinComma : List String → String
  | [] => ""
  | [s] => s
  | s :: rest => s ++ "," ++ joinComma rest

/-- A `user_training.csv` row, in the `UserTraining` interface shape the
source casts it to. `completed` stays the raw CSV string (the source compares
it against `"true"`); `expires_at` is the parsed expiry date, with `none`
covering every string the source treats as non-expiring (absent, `""`,
`"null"`, unparseable). -/
structure UserTrainingR where
  user_email : String
  training_id : String
  training_name : String
  completed : String
  completed_date : Option String := none
  expires_at : Option Nat := none
  certificate_url : Option String := none
deriving Repr, DecidableEq

/-- The whole flat-file record store: one list of rows per CSV file, with the
audit log kept in its typed (flattened) form. -/
structure SysState where
  access_policies : List Row := []
  employees : List Row := []
  user_access : List Row := []
  approval_requests : List Row := []
  ip_whitelist : List Row := []
  training_requirements : List Row := []
  user_training : List UserTrainingR := []
  audit_log : List AuditEvent := []
deriving Repr, DecidableEq

/-- `AuditLogger.logEvent`'s construction of the full event from a partial
one, composed with `flattenEvent`: a field present on the partial event wins
(the trailing `...event` spread), an absent one falls back to the generated
id/timestamp or the documented default (`SYSTEM_ACCESS`, `LOW`, `"system"`,
`"unknown_action"`, `SUCCESS`, `"No description provided"`); optional fields
flatten to `""`, the risk score to its decimal string with default `"0"`,
compliance tags to a comma-joined string. `eid` stands for
`generateEventId()` and `now` for `new Date().toISOString()`. -/
def mkAuditEvent (eid : String) (now : Nat) (ev : AuditEventDraft) : AuditEvent where
  event_id := ev.event_id.getD eid
  timestamp := ev.timestamp.getD now
  event_type := ev.event_type.getD "SYSTEM_ACCESS"
  severity := ev.severity.getD "LOW"
  user_email := ev.user_email.getD "system"
  user_role := ev.user_role.getD ""
  user_team := ev.user_team.getD ""
  resource_type := ev.resource_type.getD ""
  resource_name := ev.resource_name.getD ""
  resource_id := ev.resource_id.getD ""
  action := ev.action.getD "unknown_action"
  action_result := ev.action_result.getD "SUCCESS"
  description := ev.description.getD "No description provided"
  ip_address := ev.ip_address.getD ""
  user_agent := ev.user_agent.getD ""
  session_id := ev.session_id.getD ""
  request_id := ev.request_id.getD ""
  approver_email := ev.approver_email.getD ""
  approval_status := ev.approval_status.getD ""
  metadata := ev.metadata.getD ""
  before_state := ev.before_state.getD ""
  after_state := ev.after_state.getD ""
  risk_score := (ev.risk_score.map toString).getD "0"
  compliance_tags := (ev.compliance_tags.map joinComma).getD ""

/-- `AuditLogger.logEvent`: build the full event and append it to the audit
table (`appendToCSV` reads the file, pushes one row, writes it back — i.e.
the new table is the old one with one row appended). -/
def logEvent (eid : String) (now : Nat) (ev : AuditEventDraft) (st : SysState) :
    SysState :=
  { st with audit_log := st.audit_log ++ [mkAuditEvent eid now ev] }

/-- `AuditLogger.calculateRiskScore`. -/
def calculateRiskScore (resourceType resourceName userEmail : String) : Int :=
  let score : Int := 10
  let score := if strContains resourceName "production" then score + 40 else score
  let score := if resourceType == "database" then score + 30 else score
  let score := if resourceType == "api_key" then score + 25 else score
  let score := if resourceName == "stripe" then score + 35 else score
  let score := if strContains userEmail "intern" then score + 20 else score
  min score 100

/-- `AuditLogger.calculateIPRiskScore`. -/
def calculateIPRiskScore (ipAddress action : String) : Int :=
  let score : Int := 20
  let score := if action == "ACCESS_ATTEMPT" then score + 10 else score
  let score := if action == "WHITELISTED" then score + 30 else score
  let score :=
    if strStartsWith ipAddress "10." || strStartsWith ipAddress "192.168." then
      score - 10
    else score
  min score 100

/-- `AuditLogger.logIPWhitelist` (the JSON metadata object is abstracted to a
`key=value` summary string). -/
def logIPWhitelist (eid : String) (now : Nat)
    (userEmail ipAddress action result : String) (reason : Option String)
    (st : SysState) : SysState :=
  logEvent eid now
    { event_type := some "IP_WHITELISTED"
      severity := some "MEDIUM"
      user_email := some userEmail
      ip_address := some ipAddress
      action := some ("ip_" ++ strLower action)
      action_result := some result
      description :=
        some ("IP " ++ ipAddress ++ " " ++ strLower action ++ " for " ++ userEmail)
      metadata :=
        some ("whitelist_reason=" ++ reason.getD "undefined" ++
          ";network_action=" ++ action)
      compliance_tags := some ["network_security", "ip_management"]
      risk_score := some (calculateIPRiskScore ipAddress action) } st

/-- `AuditLogger.logSecurityEvent` (metadata abstracted as above). -/
def logSecurityEvent (eid : String) (now : Nat)
    (userEmail eventType description severity : String)
    (metadata : Option String) (st : SysState) : SysState :=
  logEvent eid now
    { event_type := some "SECURITY_VIOLATION"
      severity := some severity
      user_email := some userEmail
      action := some eventType
      action_result := some "SUCCESS"
      description := some description
      metadata := metadata
      compliance_tags := some ["security", "violation", "alert"]
      risk_score :=
        some (if severity == "CRITICAL" then 100
          else if severity == "HIGH" then 80 else 60) } st

/-! ## Access requests (`src/lib/tools/access.ts`) -/

/-- The ad-hoc result object `requestAccess` returns; absent keys are `none`. -/
structure AccessResult where
  success : Bool
  requiresApproval : Option Bool := none
  requestId : Option String := none
  approver : Option String := none
  message : Option String := none
  error : Option String := none
deriving Repr, DecidableEq

/-- One auto-approve condition clause, from the loop body in `requestAccess`:
`const [key, value] = condition.split("=")`; if `key === "team"` (untrimmed)
the value is `|`-split and membership of `user.team` is tested; otherwise
`user[key.trim()]` must equal `value.trim()` exactly. A clause with no `=`
throws in the source (`value` is `undefined`); it is modelled as comparing
against the empty string and is never exercised by the claims. -/
def evalClause (condition : String) (user : Row) : Bool :=
  let parts := jsSplit '=' condition
  let key := parts.headD ""
  let value := parts.getD 1 ""
  if key == "team" then
    match user.get "team" with
    | some t => (jsSplit '|' value).contains t
    | none => false
  else
    user.get (strTrim key) == some (strTrim value)

/-- The auto-approve condition check in `requestAccess`: skipped (true) when
the policy's `auto_approve_conditions` is absent, `"none"`, or falsy (`""`);
otherwise every comma-separated clause must pass (the loop breaks on the
first failure, which is `List.all`). -/
def evalConditions (conditions : Option String) (user : Row) : Bool :=
  match conditions with
  | none => true
  | some c =>
    if c == "none" || c == "" then true
    else (jsSplit ',' c).all (fun clause => evalClause clause user)

/-- The `approval_requests.csv` row `requestAccess` appends on the
approval-required path. -/
def approvalRow (now : Nat) (userEmail resourceType resourceName reason mgr : String) :
    Row :=
  [("request_id", "REQ-" ++ toString now),
   ("requester_email", userEmail),
   ("resource_type", resourceType),
   ("resource_name", resourceName),
   ("reason", reason),
   ("approver_email", mgr),
   ("status", "pending"),
   ("created_at", toString now),
   ("resolved_at", "null"),
   ("ticket_id", "null")]

/-- The `user_access.csv` row `requestAccess` appends on the auto-grant path. -/
def grantRow (now : Nat) (userEmail resourceType resourceName : String) : Row :=
  [("user_email", userEmail),
   ("resource_type", resourceType),
   ("resource_name", resourceName),
   ("access_level", "read_only"),
   ("granted_date", toString now),
   ("granted_by", "auto"),
   ("expires_at", "null"),
   ("status", "active")]

/-- `requestAccess(userEmail, resourceType, resourceName, reason)`.
`now` stands for `Date.now()`; the Slack DM to the manager is an external
mock with no effect on any store and is omitted. -/
def requestAccess (now : Nat) (st : SysState)
    (userEmail resourceType resourceName reason : String) :
    AccessResult × SysState :=
  match st.access_policies.find? (fun row =>
      row.get "resource_type" == some resourceType &&
      row.get "resource_name" == some resourceName) with
  | none =>
    ({ success := false,
       error := some ("No policy found for " ++ resourceType ++ ":" ++ resourceName) },
     st)
  | some policy =>
    match st.employees.find? (fun row => row.get "email" == some userEmail) with
    | none => ({ success := false, error := some "User not found" }, st)
    | some user =>
      if policy.get "requires_approval" == some "true" then
        let mgr := (user.get "manager_email").getD ""
        ({ success := true
           requiresApproval := some true
           requestId := some ("REQ-" ++ toString now)
           approver := some mgr
           message := some ("Approval request sent to " ++ mgr) },
         { st with approval_requests := st.approval_requests ++
             [approvalRow now userEmail resourceType resourceName reason mgr] })
      else
        let conditions := policy.get "auto_approve_conditions"
        if evalConditions conditions user then
          ({ success := true
             requiresApproval := some false
             message := some ("Access granted to " ++ resourceName) },
           { st with user_access := st.user_access ++
               [grantRow now userEmail resourceType resourceName] })
        else
          ({ success := false
             error := some ("Auto-approval conditions not met. Required: " ++
               conditions.getD "undefined") },
           st)

/-! ## IP whitelisting (`src/lib/tools/network.ts`) -/

/-- The ad-hoc result object `whitelistIP` returns. -/
structure WhitelistResult where
  success : Bool
  error : Option String := none
  action : Option String := none
  ip : Option String := none
  message : Option String := none
deriving Repr, DecidableEq

/-- `checkIPWhitelist(ip)`: is there an active `ip_whitelist.csv` row for it? -/
def checkIPWhitelist (st : SysState) (ip : String) : Bool :=
  (st.ip_whitelist.find? (fun row =>
    row.get "ip_address" == some ip && row.get "status" == some "active")).isSome

/-- The `ip_whitelist.csv` row `whitelistIP` appends. -/
def whitelistRow (now : Nat) (userEmail ip reason : String) : Row :=
  [("ip_address", ip),
   ("user_email", userEmail),
   ("location", "Unknown"),
   ("added_date", toString now),
   ("added_by", "auto"),
   ("status", "active"),
   ("expires_at", "null"),
   ("reason", reason)]

/-- `whitelistIP(userEmail, ip, reason)`, including its audit-logging calls.
All the audit events written during one call share the generated id `eid`
(the source generates a fresh random id per event; no claim inspects them). -/
def whitelistIP (eid : String) (now : Nat) (st : SysState)
    (userEmail ip reason : String) : WhitelistResult × SysState :=
  let st1 := logIPWhitelist eid now userEmail ip "WHITELISTED" "PENDING"
    (some reason) st
  match st1.employees.find? (fun row => row.get "email" == some userEmail) with
  | none =>
    let st2 := logIPWhitelist eid now userEmail ip "WHITELISTED" "FAILURE"
      (some "User not found") st1
    ({ success := false, error := some "User not found" }, st2)
  | some user =>
    if user.get "security_training_complete" != some "true" then
      let st2 := logIPWhitelist eid now userEmail ip "WHITELISTED" "FAILURE"
        (some "Security training incomplete") st1
      let st3 := logSecurityEvent eid now userEmail "ip_whitelist_denied"
        ("IP whitelist denied for " ++ userEmail ++ " - security training not completed")
        "MEDIUM"
        (some ("requested_ip=" ++ ip ++ ";reason=" ++ reason ++ ";training_status=" ++
          (user.get "security_training_complete").getD "undefined")) st2
      ({ success := false
         error := some "Security training required before IP whitelisting"
         action := some "Please complete security training at https://training.company.com/security-101" },
       st3)
    else if checkIPWhitelist st1 ip then
      let st2 := logIPWhitelist eid now userEmail ip "WHITELISTED" "FAILURE"
        (some "IP already whitelisted") st1
      ({ success := false
         error := some ("IP " ++ ip ++ " is already whitelisted") }, st2)
    else
      let st2 := { st1 with ip_whitelist := st1.ip_whitelist ++
        [whitelistRow now userEmail ip reason] }
      let st3 := logIPWhitelist eid now userEmail ip "WHITELISTED" "SUCCESS"
        (some reason) st2
      let st4 := logEvent eid now
        { user_email := some userEmail
          user_role := user.get "role"
          user_team := user.get "team"
          resource_type := some "network"
          resource_name := some "vpn_whitelist"
          action := some "ip_address_whitelisted"
          action_result := some "SUCCESS"
          description := some ("IP address " ++ ip ++ " whitelisted for VPN access")
          ip_address := some ip
          metadata := some ("whitelist_reason=" ++ reason ++
            ";user_location=Unknown;granted_by=auto;security_training_status=" ++
            (user.get "security_training_complete").getD "undefined")
          compliance_tags := some ["network_security", "ip_management", "vpn_access"] }
        st3
      ({ success := true
         ip := some ip
         message := some ("IP " ++ ip ++ " has been whitelisted for VPN access") },
       st4)

/-! ## Training gate (`checkUserTrainingStatus` in `src/lib/tools/api-keys.ts`) -/

/-- One entry of the training-status report. -/
structure TrainingStatus where
  training_id : String
  training_name : String
  completed : Bool
  completed_date : Option String := none
  expires_at : Option Nat := none
  expired : Bool
  training_url : String
  certificate_url : Option String := none
deriving Repr, DecidableEq

/-- The aggregate report `checkUserTrainingStatus` returns. -/
structure TrainingCheck where
  hasRequiredTraining : Bool
  trainingStatus : List TrainingStatus
  missingTraining : List TrainingStatus
deriving Repr, DecidableEq

/-- `userTraining.expires_at ? new Date(userTraining.expires_at) < new Date()
: false`: expired iff a parseable expiry exists and lies strictly before now
(falsy or unparseable strings are `none` and never expired). -/
def isExpired (now : Nat) : Option Nat → Bool
  | some t => decide (t < now)
  | none => false

/-- The missing-training entry pushed for a required id with no completed
record. -/
def missingItem (id nm url : String) : TrainingStatus where
  training_id := id
  training_name := nm
  completed := false
  completed_date := none
  expires_at := none
  expired := false
  training_url := url
  certificate_url := none

/-- The per-required-id loop of `checkUserTrainingStatus`: each
`(id, name, url)` triple goes to the satisfied list when the user's first
record for that id has `completed = "true"` (carrying the expiry flag), and
to the missing list otherwise. -/
def classifyItems (now : Nat) (uts : List UserTrainingR) :
    List (String × String × String) → List TrainingStatus × List TrainingStatus
  | [] => ([], [])
  | (id, nm, url) :: rest =>
    let r := classifyItems now uts rest
    match uts.find? (fun t => t.training_id == id) with
    | some ut =>
      if ut.completed == "true" then
        ({ training_id := id
           training_name := nm
           completed := true
           completed_date := ut.completed_date
           expires_at := ut.expires_at
           expired := isExpired now ut.expires_at
           training_url := url
           certificate_url := ut.certificate_url } :: r.1, r.2)
      else (r.1, missingItem id nm url :: r.2)
    | none => (r.1, missingItem id nm url :: r.2)

/-- The `;`-separated required training ids of a requirement row. -/
def requiredIds (req : Row) : List String :=
  jsSplit ';' ((req.get "required_training").getD "")

/-- The positional (id, name, url) triples of a requirement row; a name or
url list shorter than the id list yields `""` (JS `undefined`) entries. -/
def requirementTriples (req : Row) : List (String × String × String) :=
  let names := jsSplit ';' ((req.get "training_name").getD "")
  let urls := jsSplit ';' ((req.get "training_url").getD "")
  (requiredIds req).enum.map (fun p => (p.2, names.getD p.1 "", urls.getD p.1 ""))

/-- `checkUserTrainingStatus(userEmail, resourceType, resourceName)`. -/
def checkUserTrainingStatus (now : Nat) (st : SysState)
    (userEmail resourceType resourceName : String) : TrainingCheck :=
  match st.training_requirements.find? (fun row =>
      row.get "resource_type" == some resourceType &&
      row.get "resource_name" == some resourceName) with
  | none =>
    { hasRequiredTraining := true, trainingStatus := [], missingTraining := [] }
  | some req =>
    let uts := st.user_training.filter (fun t => t.user_email == userEmail)
    let r := classifyItems now uts (requirementTriples req)
    { hasRequiredTraining := r.2.isEmpty && r.1.all (fun t => !t.expired)
      trainingStatus := r.1
      missingTraining := r.2 }

/-! ## Audit log query (`searchAuditLogs` in `src/lib/tools/audit-viewer.ts`) -/

/-- `AuditSearchParams`: `none` models an absent key. -/
structure AuditSearchParams where
  userEmail : Option String := none
  startDate : Option Nat := none
  endDate : Option Nat := none
  eventTypes : Option (List String) := none
  severity : Option (List String) := none
  resourceType : Option String := none
  resourceName : Option String := none
  limit : Option Nat := none
  offset : Option Nat := none
deriving Repr, DecidableEq

/-- The filter predicate of `searchAuditLogs`: each guard is of the form
`if (params.x && mismatch) return false`, so an absent — or falsy, i.e.
empty-string — parameter is skipped; a present date bound is inclusive; a
present type or severity list (even an empty one) demands membership. -/
def matchesParams (p : AuditSearchParams) (e : AuditEvent) : Bool :=
  (match p.userEmail with
   | none => true
   | some u => u == "" || e.user_email == u) &&
  (match p.startDate with
   | none => true
   | some s => !(e.timestamp < s)) &&
  (match p.endDate with
   | none => true
   | some en => !(e.timestamp > en)) &&
  (match p.eventTypes with
   | none => true
   | some ts => ts.contains e.event_type) &&
  (match p.severity with
   | none => true
   | some ss => ss.contains e.severity) &&
  (match p.resourceType with
   | none => true
   | some rt => rt == "" || e.resource_type == rt) &&
  (match p.resourceName with
   | none => true
   | some rn => rn == "" || e.resource_name == rn)

/-- `params.offset || 0`. -/
def effOffset (p : AuditSearchParams) : Nat := p.offset.getD 0

/-- `params.limit || 50`: a supplied limit of `0` is falsy in JS and falls
back to the default `50`. -/
def effLimit (p : AuditSearchParams) : Nat :=
  match p.limit with
  | some l => if l == 0 then 50 else l
  | none => 50

/-- The result triple of `searchAuditLogs`. -/
structure SearchResult where
  events : List AuditEvent
  total : Nat
  hasMore : Bool
deriving Repr, DecidableEq

/-- `searchAuditLogs(params)`: filter, sort newest-first (the comparator
`(a, b) => b.timestamp - a.timestamp`, a stable sort), then paginate with
`slice(offset, offset + limit)`; `total` counts before pagination and
`hasMore = offset + limit < total`. -/
def searchAuditLogs (log : List AuditEvent) (p : AuditSearchParams) : SearchResult :=
  let filtered := log.filter (matchesParams p)
  let sorted := filtered.mergeSort (fun a b => b.timestamp ≤ a.timestamp)
  let offset := effOffset p
  let limit := effLimit p
  { events := (sorted.drop offset).take limit
    total := filtered.length
    hasMore := decide (offset + limit < filtered.length) }

/-! ## Concrete fixtures used by witnesses and counterexamples -/

/-- A state with every table empty. -/
def emptyState : SysState := {}

/-- An `access_policies.csv` row requiring approval (scenario of §8). -/
def demoPolicyApproval : Row :=
  [("policy_id", "P1"), ("resource_type", "database"),
   ("resource_name", "production_db"), ("required_role", "Engineer"),
   ("requires_approval", "true"), ("approver_role", "manager"),
   ("auto_approve_conditions", "none"), ("description", "prod db")]

/-- An `employees.csv` row. -/
def demoEve : Row :=
  [("email", "eve@company.com"), ("name", "Eve"), ("role", "Engineer"),
   ("team", "Backend"), ("manager_email", "mallory@company.com"),
   ("security_training_complete", "true")]

/-- State for the approval-required scenario. -/
def demoStateC1 : SysState :=
  { access_policies := [demoPolicyApproval], employees := [demoEve] }

/-- A no-approval policy whose auto-approve condition alternates on a
non-`team` key. -/
def rolePolicy : Row :=
  [("resource_type", "tool"), ("resource_name", "deploybot"),
   ("requires_approval", "false"),
   ("auto_approve_conditions", "role=Engineer|Manager")]

/-- A user whose `role` equals one of the alternatives of `rolePolicy`. -/
def roleUser : Row :=
  [("email", "eng@company.com"), ("role", "Engineer"), ("team", "Backend")]

/-- State exercising `|`-alternation on the `role` key. -/
def roleState : SysState :=
  { access_policies := [rolePolicy], employees := [roleUser] }

/-- The `cloud:aws_dev` policy of §8 with condition `team=Backend|Platform`. -/
def awsPolicy : Row :=
  [("resource_type", "cloud"), ("resource_name", "aws_dev"),
   ("requires_approval", "false"),
   ("auto_approve_conditions", "team=Backend|Platform")]

/-- A Frontend user (condition should fail). -/
def franUser : Row :=
  [("email", "fran@company.com"), ("team", "Frontend"),
   ("manager_email", "m@company.com")]

/-- A Platform user (condition should pass). -/
def patUser : Row :=
  [("email", "pat@company.com"), ("team", "Platform"),
   ("manager_email", "m@company.com")]

/-- State for the auto-approve scenario. -/
def awsState : SysState :=
  { access_policies := [awsPolicy], employees := [franUser, patUser] }

/-- A `training_requirements.csv` row with two required trainings. -/
def prodDbRequirement : Row :=
  [("resource_type", "database"), ("resource_name", "production_db"),
   ("required_training", "sec101;db201"),
   ("training_name", "Security Basics;Database Safety"),
   ("training_url", "https://t/sec101;https://t/db201"),
   ("description", "prod trainings")]

/-- A completed training record that expires at time 50. -/
def eveSec : UserTrainingR :=
  { user_email := "eve@company.com", training_id := "sec101",
    training_name := "Security Basics", completed := "true",
    completed_date := some "2024-01-01", expires_at := some 50,
    certificate_url := some "https://c/1" }

/-- A completed training record with no expiry. -/
def eveDb : UserTrainingR :=
  { user_email := "eve@company.com", training_id := "db201",
    training_name := "Database Safety", completed := "true" }

/-- State for the training-gate scenario. -/
def trainState : SysState :=
  { training_requirements := [prodDbRequirement],
    user_training := [eveSec, eveDb] }

/-- Concrete audit events for the query scenarios. -/
def evA : AuditEvent :=
  mkAuditEvent "AUDIT-10-AA" 10 { user_email := some "a@company.com" }

/-- A later, high-severity event. -/
def evB : AuditEvent :=
  mkAuditEvent "AUDIT-20-BB" 20
    { user_email := some "b@company.com", severity := some "HIGH" }

/-- A middle event by the first user. -/
def evC : AuditEvent :=
  mkAuditEvent "AUDIT-15-CC" 15 { user_email := some "a@company.com" }

/-- An already-active whitelist row for 203.0.113.7. -/
def wlRow : Row := whitelistRow 1 "old@company.com" "203.0.113.7" "travel"

/-- A fully-trained employee row. -/
def wlUser : Row :=
  [("email", "eve@company.com"), ("role", "Engineer"), ("team", "Backend"),
   ("security_training_complete", "true")]

/-- State in which 203.0.113.7 is already whitelisted. -/
def wlState : SysState := { employees := [wlUser], ip_whitelist := [wlRow] }

/-! ## Helper lemmas -/

/-- Splitting never yields an empty list of fragments. -/
theorem splitChars_ne_nil (c : Char) (l : List Char) : splitChars c l ≠ [] := by
  induction l with
  | nil => simp [splitChars]
  | cons x xs ih =>
    simp only [splitChars]
    cases h : splitChars c xs with
    | nil => simp
    | cons a t => simp only [h]; split <;> simp

/-- Splitting at the first separator occurrence peels off the leading
fragment. -/
theorem splitChars_sep (c : Char) (k rest : List Char) (hk : c ∉ k) :
    splitChars c (k ++ c :: rest) = k :: splitChars c rest := by
  induction k with
  | nil =>
    simp only [List.nil_append, splitChars]
    cases h : splitChars c rest with
    | nil => exact absurd h (splitChars_ne_nil c rest)
    | cons a t => simp only [h]; simp
  | cons x xs ih =>
    have hx : x ≠ c := fun e => hk (e ▸ List.mem_cons_self x xs)
    have hxs : c ∉ xs := fun m => hk (List.mem_cons_of_mem x m)
    rw [List.cons_append]
    simp only [splitChars]
    rw [ih hxs]
    simp [hx]

/-- Splitting on a character that does not occur returns the whole input. -/
theorem splitChars_of_not_mem (c : Char) (l : List Char) (hc : c ∉ l) :
    splitChars c l = [l] := by
  induction l with
  | nil => rfl
  | cons x xs ih =>
    have hx : x ≠ c := fun e => hc (e ▸ List.mem_cons_self x xs)
    have hxs : c ∉ xs := fun m => hc (List.mem_cons_of_mem x m)
    simp only [splitChars]
    rw [ih hxs]
    simp [hx]

/-- String append acts as list append on the underlying characters. -/
theorem data_append (a b : String) : (a ++ b).data = a.data ++ b.data := by
  cases a; cases b; rfl

/-- Rebuilding a string from its characters is the identity. -/
theorem mk_data (s : String) : String.mk s.data = s := by cases s; rfl

/-- JS `split("=")` on a well-formed `key=value` clause yields the pair. -/
theorem jsSplit_sep (key value : String)
    (hk : ('=' : Char) ∉ key.data) (hv : ('=' : Char) ∉ value.data) :
    jsSplit '=' (key ++ "=" ++ value) = [key, value] := by
  unfold jsSplit
  have hdata : (key ++ "=" ++ value).data = key.data ++ '=' :: value.data := by
    rw [data_append, data_append, List.append_assoc]; rfl
  rw [hdata, splitChars_sep '=' key.data value.data hk,
    splitChars_of_not_mem '=' value.data hv]
  simp [mk_data]

/-- The source's expiry test holds exactly for a parseable past date. -/
theorem isExpired_true_iff (now : Nat) (e : Option Nat) :
    isExpired now e = true ↔ ∃ t, e = some t ∧ t < now := by
  cases e <;> simp [isExpired]

/-- Every required training lands in exactly one of the two report lists. -/
theorem classifyItems_length (now : Nat) (uts : List UserTrainingR)
    (l : List (String × String × String)) :
    (classifyItems now uts l).1.length + (classifyItems now uts l).2.length = l.length := by
  induction l with
  | nil => rfl
  | cons x rest ih =>
    obtain ⟨id, nm, url⟩ := x
    simp only [classifyItems]
    cases h : uts.find? (fun t => t.training_id == id) with
    | none => simp only [h]; simpa using by omega
    | some ut =>
      simp only [h]
      split <;> simp <;> omega

/-- Every satisfied-list entry is backed by a completed user record, and its
expiry flag is the source's expiry test on that record. -/
theorem classifyItems_sat (now : Nat) (uts : List UserTrainingR)
    (l : List (String × String × String)) :
    ∀ item ∈ (classifyItems now uts l).1,
      item.completed = true
      ∧ ∃ ut, uts.find? (fun t => t.training_id == item.training_id) = some ut
          ∧ ut.completed = "true"
          ∧ item.expired = isExpired now ut.expires_at
          ∧ item.expires_at = ut.expires_at := by
  induction l with
  | nil => simp [classifyItems]
  | cons x rest ih =>
    obtain ⟨id, nm, url⟩ := x
    intro item hmem
    simp only [classifyItems] at hmem
    cases h : uts.find? (fun t => t.training_id == id) with
    | none =>
      rw [h] at hmem
      exact ih item hmem
    | some ut =>
      rw [h] at hmem
      dsimp only at hmem
      by_cases hcomp : (ut.completed == "true") = true
      · rw [if_pos hcomp] at hmem
        rcases List.mem_cons.mp hmem with rfl | hmem'
        · refine ⟨rfl, ut, ?_, by simpa using hcomp, rfl, rfl⟩
          simpa using h
        · exact ih item hmem'
      · rw [if_neg hcomp] at hmem
        exact ih item hmem

/-- Every missing-list entry is never-expired, marked incomplete, and has no
completed user record. -/
theorem classifyItems_missing (now : Nat) (uts : List UserTrainingR)
    (l : List (String × String × String)) :
    ∀ item ∈ (classifyItems now uts l).2,
      item.completed = false ∧ item.expired = false
      ∧ ∀ ut, uts.find? (fun t => t.training_id == item.training_id) = some ut →
          ut.completed ≠ "true" := by
  induction l with
  | nil => simp [classifyItems]
  | cons x rest ih =>
    obtain ⟨id, nm, url⟩ := x
    intro item hmem
    simp only [classifyItems] at hmem
    cases h : uts.find? (fun t => t.training_id == id) with
    | none =>
      rw [h] at hmem
      rcases List.mem_cons.mp hmem with rfl | hmem'
      · refine ⟨rfl, rfl, ?_⟩
        intro ut hfind
        rw [show (missingItem id nm url).training_id = id from rfl] at hfind
        rw [h] at hfind
        exact absurd hfind (by simp)
      · exact ih item hmem'
    | some ut =>
      rw [h] at hmem
      dsimp only at hmem
      by_cases hcomp : (ut.completed == "true") = true
      · rw [if_pos hcomp] at hmem
        exact ih item hmem
      · rw [if_neg hcomp] at hmem
        rcases List.mem_cons.mp hmem with rfl | hmem'
        · refine ⟨rfl, rfl, ?_⟩
          intro ut' hfind
          rw [show (missingItem id nm url).training_id = id from rfl] at hfind
          rw [h] at hfind
          have : ut' = ut := (Option.some_inj.mp hfind).symm
          subst this
          intro hcomp'
          exact hcomp (by simp [hcomp'])
        · exact ih item hmem'

/-! ## Claim theorems -/

/-- Claim C1: when the resource's policy requires approval and both the
policy and the user exist, `requestAccess` creates no access grant; it
appends exactly one approval-request row, in `pending` state, whose
`approver_email` is the requester's `manager_email`, and returns a
pending-approval outcome carrying that request id and approver. -/
theorem requestAccess_approval (now : Nat) (st : SysState)
    (userEmail resourceType resourceName reason : String)
    (policy user : Row) (mgr : String)
    (hp : st.access_policies.find? (fun row =>
        row.get "resource_type" == some resourceType &&
        row.get "resource_name" == some resourceName) = some policy)
    (hu : st.employees.find? (fun row => row.get "email" == some userEmail) = some user)
    (hra : policy.get "requires_approval" = some "true")
    (hm : user.get "manager_email" = some mgr) :
    (requestAccess now st userEmail resourceType resourceName reason).2.user_access
      = st.user_access
    ∧ (∃ row,
        (requestAccess now st userEmail resourceType resourceName reason).2.approval_requests
          = st.approval_requests ++ [row]
        ∧ row.get "status" = some "pending"
        ∧ row.get "approver_email" = some mgr
        ∧ row.get "request_id" = some ("REQ-" ++ toString now))
    ∧ (requestAccess now st userEmail resourceType resourceName reason).1.success = true
    ∧ (requestAccess now st userEmail resourceType resourceName reason).1.requiresApproval
        = some true
    ∧ (requestAccess now st userEmail resourceType resourceName reason).1.requestId
        = some ("REQ-" ++ toString now)
    ∧ (requestAccess now st userEmail resourceType resourceName reason).1.approver
        = some mgr := by
  unfold requestAccess
  rw [hp, hu]
  simp only [hra, hm]
  refine ⟨by simp, ⟨approvalRow now userEmail resourceType resourceName reason mgr,
    by simp, ?_, ?_, ?_⟩, by simp, by simp, by simp, by simp⟩
  · simp [approvalRow, Row.get, List.find?]
  · simp [approvalRow, Row.get, List.find?]
  · simp [approvalRow, Row.get, List.find?]

/-- Claim C1 witness: the §8 scenario — Eve requests `database:production_db`
under an approval-required policy; one pending request for her manager is
appended and returned. -/
theorem requestAccess_approval_witness :
    (requestAccess 7 demoStateC1 "eve@company.com" "database" "production_db" "debug prod issue").2.user_access
      = demoStateC1.user_access
    ∧ (∃ row,
        (requestAccess 7 demoStateC1 "eve@company.com" "database" "production_db" "debug prod issue").2.approval_requests
          = demoStateC1.approval_requests ++ [row]
        ∧ row.get "status" = some "pending"
        ∧ row.get "approver_email" = some "mallory@company.com"
        ∧ row.get "request_id" = some ("REQ-" ++ toString 7))
    ∧ (requestAccess 7 demoStateC1 "eve@company.com" "database" "production_db" "debug prod issue").1.success = true
    ∧ (requestAccess 7 demoStateC1 "eve@company.com" "database" "production_db" "debug prod issue").1.requiresApproval
        = some true
    ∧ (requestAccess 7 demoStateC1 "eve@company.com" "database" "production_db" "debug prod issue").1.requestId
        = some ("REQ-" ++ toString 7)
    ∧ (requestAccess 7 demoStateC1 "eve@company.com" "database" "production_db" "debug prod issue").1.approver
        = some "mallory@company.com" :=
  requestAccess_approval 7 demoStateC1 "eve@company.com" "database" "production_db"
    "debug prod issue" demoPolicyApproval demoEve "mallory@company.com"
    (by decide) (by decide) (by decide) (by decide)

/-- Claim C2 counterexample: under the condition `role=Engineer|Manager`, a
user whose `role` is `Engineer` — one of the `|`-alternatives — fails the
clause, and `requestAccess` with that policy denies the request, so the
evaluator does not apply `|`-alternation generically to any key. -/
theorem c2_counterexample :
    evalClause "role=Engineer|Manager" [("role", "Engineer")] = false
    ∧ Row.get [("role", "Engineer")] "role" = some "Engineer"
    ∧ (jsSplit '|' "Engineer|Manager").contains "Engineer" = true
    ∧ (requestAccess 0 roleState "eng@company.com" "tool" "deploybot" "ship").1.success
        = false := by
  refine ⟨by decide, by decide, by decide, by decide⟩

/-- Claim C2 (amended): the clause evaluator applies `|`-alternation only
when the key is literally `team` — there the user's team must equal one of
the `|`-separated values; for any other key the whole right-hand side is
compared, after trimming, as a single literal. -/
theorem evalClause_team_only (key value : String) (user : Row)
    (hk : ('=' : Char) ∉ key.data) (hv : ('=' : Char) ∉ value.data) :
    evalClause ("team=" ++ value) user =
      (match user.get "team" with
       | some t => (jsSplit '|' value).contains t
       | none => false)
    ∧ (key ≠ "team" →
        evalClause (key ++ "=" ++ value) user =
          (user.get (strTrim key) == some (strTrim value))) := by
  constructor
  · have h := jsSplit_sep "team" value (by decide) hv
    unfold evalClause
    rw [show ("team=" ++ value) = "team" ++ "=" ++ value from rfl, h]
    simp
  · intro hne
    have h := jsSplit_sep key value hk hv
    unfold evalClause
    rw [h]
    simp [hne]

/-- Claim C2 witness: the amended behaviour at concrete clauses — team
alternation matches `Platform` against `Backend|Platform`, while for the
`role` key the right-hand side is one literal. -/
theorem evalClause_team_only_witness :
    evalClause ("team=" ++ "Backend|Platform") [("team", "Platform")] =
      (match Row.get [("team", "Platform")] "team" with
       | some t => (jsSplit '|' "Backend|Platform").contains t
       | none => false)
    ∧ ("role" ≠ "team" →
        evalClause ("role" ++ "=" ++ "Engineer|Manager") [("role", "Engineer")] =
          (Row.get [("role", "Engineer")] (strTrim "role") ==
            some (strTrim "Engineer|Manager"))) :=
  ⟨(evalClause_team_only "role" "Backend|Platform" [("team", "Platform")]
      (by decide) (by decide)).1,
   fun h => (evalClause_team_only "role" "Engineer|Manager" [("role", "Engineer")]
      (by decide) (by decide)).2 h⟩

/-- Claim C3: on a no-approval policy, when the auto-approve conditions pass
`requestAccess` appends one grant with `access_level = "read_only"`,
`granted_by = "auto"` and the `null` expiry marker, and reports an
auto-granted outcome; when they fail it denies, echoing the unmet condition
string, and changes nothing. -/
theorem requestAccess_auto (now : Nat) (st : SysState)
    (userEmail resourceType resourceName reason : String)
    (policy user : Row)
    (hp : st.access_policies.find? (fun row =>
        row.get "resource_type" == some resourceType &&
        row.get "resource_name" == some resourceName) = some policy)
    (hu : st.employees.find? (fun row => row.get "email" == some userEmail) = some user)
    (hra : (policy.get "requires_approval" == some "true") = false) :
    (evalConditions (policy.get "auto_approve_conditions") user = true →
      (requestAccess now st userEmail resourceType resourceName reason).2.user_access
        = st.user_access ++ [grantRow now userEmail resourceType resourceName]
      ∧ (grantRow now userEmail resourceType resourceName).get "access_level"
          = some "read_only"
      ∧ (grantRow now userEmail resourceType resourceName).get "granted_by" = some "auto"
      ∧ (grantRow now userEmail resourceType resourceName).get "expires_at" = some "null"
      ∧ (requestAccess now st userEmail resourceType resourceName reason).2.approval_requests
          = st.approval_requests
      ∧ (requestAccess now st userEmail resourceType resourceName reason).1.success = true
      ∧ (requestAccess now st userEmail resourceType resourceName reason).1.requiresApproval
          = some false)
    ∧ (evalConditions (policy.get "auto_approve_conditions") user = false →
      (requestAccess now st userEmail resourceType resourceName reason).1.success = false
      ∧ (requestAccess now st userEmail resourceType resourceName reason).2 = st
      ∧ ∃ c, policy.get "auto_approve_conditions" = some c
          ∧ (requestAccess now st userEmail resourceType resourceName reason).1.error
            = some ("Auto-approval conditions not met. Required: " ++ c)) := by
  unfold requestAccess
  rw [hp, hu]
  simp only [hra, Bool.false_eq_true, if_false]
  constructor
  · intro hc
    simp only [hc, if_true]
    refine ⟨by simp, ?_, ?_, ?_, by simp, by simp, by simp⟩
    · simp [grantRow, Row.get, List.find?]
    · simp [grantRow, Row.get, List.find?]
    · simp [grantRow, Row.get, List.find?]
  · intro hc
    simp only [hc, Bool.false_eq_true, if_false]
    rcases hcond : policy.get "auto_approve_conditions" with _ | c
    · rw [hcond] at hc
      simp [evalConditions] at hc
    · exact ⟨by simp, by simp, c, rfl, by simp [hcond]⟩

/-- Claim C3 witness: under condition `team=Backend|Platform`, a `Frontend`
user is denied with the condition echoed, and a `Platform` user is
auto-granted read-only access. -/
theorem requestAccess_auto_witness :
    ((requestAccess 5 awsState "fran@company.com" "cloud" "aws_dev" "need").1.success = false
    ∧ (requestAccess 5 awsState "fran@company.com" "cloud" "aws_dev" "need").2 = awsState
    ∧ ∃ c, awsPolicy.get "auto_approve_conditions" = some c
        ∧ (requestAccess 5 awsState "fran@company.com" "cloud" "aws_dev" "need").1.error
          = some ("Auto-approval conditions not met. Required: " ++ c))
    ∧ ((requestAccess 5 awsState "pat@company.com" "cloud" "aws_dev" "need").2.user_access
        = awsState.user_access ++ [grantRow 5 "pat@company.com" "cloud" "aws_dev"]
      ∧ (grantRow 5 "pat@company.com" "cloud" "aws_dev").get "access_level"
          = some "read_only"
      ∧ (grantRow 5 "pat@company.com" "cloud" "aws_dev").get "granted_by" = some "auto"
      ∧ (grantRow 5 "pat@company.com" "cloud" "aws_dev").get "expires_at" = some "null"
      ∧ (requestAccess 5 awsState "pat@company.com" "cloud" "aws_dev" "need").2.approval_requests
          = awsState.approval_requests
      ∧ (requestAccess 5 awsState "pat@company.com" "cloud" "aws_dev" "need").1.success = true
      ∧ (requestAccess 5 awsState "pat@company.com" "cloud" "aws_dev" "need").1.requiresApproval
          = some false) :=
  ⟨(requestAccess_auto 5 awsState "fran@company.com" "cloud" "aws_dev" "need"
      awsPolicy franUser (by decide) (by decide) (by decide)).2 (by decide),
   (requestAccess_auto 5 awsState "pat@company.com" "cloud" "aws_dev" "need"
      awsPolicy patUser (by decide) (by decide) (by decide)).1 (by decide)⟩

/-- Claim C4: for a resource with a training requirement, every entry of the
satisfied list is backed by a completed user record and carries the expiry
flag (`expires_at` parseable and strictly before now) — expired completions
stay in the satisfied list, not the missing list; every missing entry has no
completed record; the two lists partition the required ids; and the
aggregate `hasRequiredTraining` holds exactly when nothing is missing and no
satisfied entry is expired. -/
theorem checkUserTrainingStatus_spec (now : Nat) (st : SysState)
    (userEmail resourceType resourceName : String) (req : Row)
    (hreq : st.training_requirements.find? (fun row =>
        row.get "resource_type" == some resourceType &&
        row.get "resource_name" == some resourceName) = some req) :
    (∀ item ∈ (checkUserTrainingStatus now st userEmail resourceType resourceName).trainingStatus,
      item.completed = true
      ∧ ∃ ut, (st.user_training.filter (fun t => t.user_email == userEmail)).find?
            (fun t => t.training_id == item.training_id) = some ut
          ∧ ut.completed = "true"
          ∧ (item.expired = true ↔ ∃ texp, ut.expires_at = some texp ∧ texp < now))
    ∧ (∀ item ∈ (checkUserTrainingStatus now st userEmail resourceType resourceName).missingTraining,
      item.completed = false ∧ item.expired = false
      ∧ ∀ ut, (st.user_training.filter (fun t => t.user_email == userEmail)).find?
            (fun t => t.training_id == item.training_id) = some ut →
          ut.completed ≠ "true")
    ∧ (checkUserTrainingStatus now st userEmail resourceType resourceName).trainingStatus.length
        + (checkUserTrainingStatus now st userEmail resourceType resourceName).missingTraining.length
        = (requiredIds req).length
    ∧ ((checkUserTrainingStatus now st userEmail resourceType resourceName).hasRequiredTraining = true
        ↔ (checkUserTrainingStatus now st userEmail resourceType resourceName).missingTraining = []
          ∧ ∀ item ∈ (checkUserTrainingStatus now st userEmail resourceType resourceName).trainingStatus,
              item.expired = false) := by
  unfold checkUserTrainingStatus
  rw [hreq]
  dsimp only
  refine ⟨?_, ?_, ?_, ?_⟩
  · intro item hmem
    obtain ⟨h1, ut, h2, h3, h4, h5⟩ := classifyItems_sat now _ _ item hmem
    exact ⟨h1, ut, h2, h3, by rw [h4]; exact isExpired_true_iff now ut.expires_at⟩
  · exact classifyItems_missing now _ _
  · rw [classifyItems_length]
    simp [requirementTriples]
  · simp only [Bool.and_eq_true, List.isEmpty_iff, List.all_eq_true, Bool.not_eq_true']

/-- Claim C4 witness: Eve at time 100 has both required trainings completed,
one of them expired at 50; the report lists both as satisfied, flags the
expired one, misses nothing, and the aggregate is characterized as claimed. -/
theorem checkUserTrainingStatus_spec_witness :
    (∀ item ∈ (checkUserTrainingStatus 100 trainState "eve@company.com" "database" "production_db").trainingStatus,
      item.completed = true
      ∧ ∃ ut, (trainState.user_training.filter (fun t => t.user_email == "eve@company.com")).find?
            (fun t => t.training_id == item.training_id) = some ut
          ∧ ut.completed = "true"
          ∧ (item.expired = true ↔ ∃ texp, ut.expires_at = some texp ∧ texp < 100))
    ∧ (∀ item ∈ (checkUserTrainingStatus 100 trainState "eve@company.com" "database" "production_db").missingTraining,
      item.completed = false ∧ item.expired = false
      ∧ ∀ ut, (trainState.user_training.filter (fun t => t.user_email == "eve@company.com")).find?
            (fun t => t.training_id == item.training_id) = some ut →
          ut.completed ≠ "true")
    ∧ (checkUserTrainingStatus 100 trainState "eve@company.com" "database" "production_db").trainingStatus.length
        + (checkUserTrainingStatus 100 trainState "eve@company.com" "database" "production_db").missingTraining.length
        = (requiredIds prodDbRequirement).length
    ∧ ((checkUserTrainingStatus 100 trainState "eve@company.com" "database" "production_db").hasRequiredTraining = true
        ↔ (checkUserTrainingStatus 100 trainState "eve@company.com" "database" "production_db").missingTraining = []
          ∧ ∀ item ∈ (checkUserTrainingStatus 100 trainState "eve@company.com" "database" "production_db").trainingStatus,
              item.expired = false) :=
  checkUserTrainingStatus_spec 100 trainState "eve@company.com" "database" "production_db"
    prodDbRequirement (by decide)

/-- Claim C5 counterexample: on the no-policy denial branch `requestAccess`
emits no audit event at all — the audit log is exactly as long as before,
not one event longer. -/
theorem c5_counterexample :
    (requestAccess 0 emptyState "alice@company.com" "database" "production_db" "debug").1.success = false
    ∧ (requestAccess 0 emptyState "alice@company.com" "database" "production_db" "debug").2.audit_log.length
        = emptyState.audit_log.length := by
  refine ⟨by decide, by decide⟩

/-- Claim C5 (amended): no branch of `requestAccess` emits any audit event;
the audit log is unchanged on every path (the risk-scoring
`logAccessRequest` helper exists in the audit module but is never invoked). -/
theorem requestAccess_no_audit (now : Nat) (st : SysState)
    (userEmail resourceType resourceName reason : String) :
    (requestAccess now st userEmail resourceType resourceName reason).2.audit_log =
      st.audit_log := by
  unfold requestAccess
  split
  · rfl
  · split
    · rfl
    · dsimp only
      split <;> [rfl; split <;> rfl]

/-- Claim C6: the risk score is exactly the base 10 plus the five additive
heuristics, clamped at 100, and therefore always lies in `[0, 100]`. -/
theorem calculateRiskScore_spec (resourceType resourceName userEmail : String) :
    calculateRiskScore resourceType resourceName userEmail =
      min (10 + (if strContains resourceName "production" then (40 : Int) else 0)
        + (if resourceType == "database" then 30 else 0)
        + (if resourceType == "api_key" then 25 else 0)
        + (if resourceName == "stripe" then 35 else 0)
        + (if strContains userEmail "intern" then 20 else 0)) 100
    ∧ 0 ≤ calculateRiskScore resourceType resourceName userEmail
    ∧ calculateRiskScore resourceType resourceName userEmail ≤ 100 := by
  unfold calculateRiskScore
  refine ⟨?_, ?_, ?_⟩ <;> split_ifs <;> simp_all

/-- Claim C7: recording a partial event appends exactly one event — filling
in the generated id and timestamp and the `LOW`/`SUCCESS` defaults for any
unset field — leaves every previously recorded event unchanged, and makes
the match count of any fixed query filter non-decreasing. -/
theorem logEvent_spec (eid : String) (now : Nat) (ev : AuditEventDraft) (st : SysState) :
    ∃ e, (logEvent eid now ev st).audit_log = st.audit_log ++ [e]
    ∧ (ev.event_id = none → e.event_id = eid)
    ∧ (ev.timestamp = none → e.timestamp = now)
    ∧ (ev.severity = none → e.severity = "LOW")
    ∧ (ev.action_result = none → e.action_result = "SUCCESS")
    ∧ (logEvent eid now ev st).audit_log.take st.audit_log.length = st.audit_log
    ∧ ∀ p : AuditSearchParams,
        (st.audit_log.filter (matchesParams p)).length ≤
          ((logEvent eid now ev st).audit_log.filter (matchesParams p)).length := by
  refine ⟨mkAuditEvent eid now ev, rfl, ?_, ?_, ?_, ?_, ?_, ?_⟩
  · intro h; simp [mkAuditEvent, h]
  · intro h; simp [mkAuditEvent, h]
  · intro h; simp [mkAuditEvent, h]
  · intro h; simp [mkAuditEvent, h]
  · exact List.take_left _ _
  · intro p
    simp [logEvent, List.filter_append]

/-- Claim C7 witness: recording the all-defaults partial event on the empty
state appends one defaulted event and keeps filter counts non-decreasing. -/
theorem logEvent_spec_witness :
    ∃ e, (logEvent "AUDIT-9-ZZ" 9 {} emptyState).audit_log = emptyState.audit_log ++ [e]
    ∧ (AuditEventDraft.event_id {} = none → e.event_id = "AUDIT-9-ZZ")
    ∧ (AuditEventDraft.timestamp {} = none → e.timestamp = 9)
    ∧ (AuditEventDraft.severity {} = none → e.severity = "LOW")
    ∧ (AuditEventDraft.action_result {} = none → e.action_result = "SUCCESS")
    ∧ (logEvent "AUDIT-9-ZZ" 9 {} emptyState).audit_log.take emptyState.audit_log.length
        = emptyState.audit_log
    ∧ ∀ p : AuditSearchParams,
        (emptyState.audit_log.filter (matchesParams p)).length ≤
          ((logEvent "AUDIT-9-ZZ" 9 {} emptyState).audit_log.filter (matchesParams p)).length :=
  logEvent_spec "AUDIT-9-ZZ" 9 {} emptyState

/-- Claim C8 counterexample: with a supplied `limit` of `0` (falsy in JS,
silently replaced by the default 50), `hasMore` is `false` although
`offset + limit < total`, so the claimed biconditional fails. -/
theorem c8_counterexample :
    (searchAuditLogs [evA] { limit := some 0 }).hasMore = false
    ∧ 0 + 0 < (searchAuditLogs [evA] { limit := some 0 }).total := by
  exact ⟨rfl, by decide⟩

/-- Claim C8 (amended): the query returns only events matching all supplied
filters, sorted newest-first; `total` counts the matches before pagination;
and with the effective pagination values — offset defaulting to 0, limit
defaulting to 50 when unset or zero — `hasMore` holds iff
`effOffset + effLimit < total`, and the page length is
`min effLimit (total - effOffset)`. -/
theorem searchAuditLogs_spec (log : List AuditEvent) (p : AuditSearchParams) :
    (searchAuditLogs log p).total = (log.filter (matchesParams p)).length
    ∧ (∀ e ∈ (searchAuditLogs log p).events, matchesParams p e = true)
    ∧ List.Sorted (fun a b : AuditEvent => b.timestamp ≤ a.timestamp)
        (searchAuditLogs log p).events
    ∧ ((searchAuditLogs log p).hasMore = true
        ↔ effOffset p + effLimit p < (searchAuditLogs log p).total)
    ∧ (searchAuditLogs log p).events.length
        = min (effLimit p) ((searchAuditLogs log p).total - effOffset p) := by
  unfold searchAuditLogs
  dsimp only
  refine ⟨rfl, ?_, ?_, by simp, ?_⟩
  · intro e he
    have hsub : List.Sublist
        ((((log.filter (matchesParams p)).mergeSort
          (fun a b => b.timestamp ≤ a.timestamp)).drop (effOffset p)).take (effLimit p))
        ((log.filter (matchesParams p)).mergeSort
          (fun a b => b.timestamp ≤ a.timestamp)) :=
      (List.take_sublist _ _).trans (List.drop_sublist _ _)
    have hmem : e ∈ (log.filter (matchesParams p)).mergeSort
        (fun a b => b.timestamp ≤ a.timestamp) := hsub.mem he
    have hmem' : e ∈ log.filter (matchesParams p) :=
      (List.mergeSort_perm (log.filter (matchesParams p)) _).mem_iff.mp hmem
    exact List.of_mem_filter hmem'
  · have hpw : ((log.filter (matchesParams p)).mergeSort
        (fun a b => b.timestamp ≤ a.timestamp)).Pairwise
          (fun a b => (decide (b.timestamp ≤ a.timestamp)) = true) := by
      apply List.sorted_mergeSort
      · intro a b c hab hbc
        simp only [decide_eq_true_iff] at hab hbc ⊢
        omega
      · intro a b
        simp only [Bool.or_eq_true, decide_eq_true_iff]
        omega
    have hpw' : ((log.filter (matchesParams p)).mergeSort
        (fun a b => b.timestamp ≤ a.timestamp)).Pairwise
          (fun a b : AuditEvent => b.timestamp ≤ a.timestamp) :=
      hpw.imp (fun h => of_decide_eq_true h)
    exact hpw'.sublist ((List.take_sublist _ _).trans (List.drop_sublist _ _))
  · rw [List.length_take, List.length_drop,
      (List.mergeSort_perm (log.filter (matchesParams p)) _).length_eq]

/-- Claim C8 witness: the amended query contract evaluated on a concrete
three-event log with default parameters. -/
theorem searchAuditLogs_spec_witness :
    (searchAuditLogs [evA, evB, evC] {}).total
        = ([evA, evB, evC].filter (matchesParams {})).length
    ∧ (∀ e ∈ (searchAuditLogs [evA, evB, evC] {}).events, matchesParams {} e = true)
    ∧ List.Sorted (fun a b : AuditEvent => b.timestamp ≤ a.timestamp)
        (searchAuditLogs [evA, evB, evC] {}).events
    ∧ ((searchAuditLogs [evA, evB, evC] {}).hasMore = true
        ↔ effOffset {} + effLimit {} < (searchAuditLogs [evA, evB, evC] {}).total)
    ∧ (searchAuditLogs [evA, evB, evC] {}).events.length
        = min (effLimit {}) ((searchAuditLogs [evA, evB, evC] {}).total - effOffset {}) :=
  searchAuditLogs_spec [evA, evB, evC] {}

/-- Claim C9: whenever `requestAccess` returns a failure outcome, the whole
store — in particular the grants and approval-request tables — is unchanged. -/
theorem requestAccess_denial_pure (now : Nat) (st : SysState)
    (userEmail resourceType resourceName reason : String)
    (h : (requestAccess now st userEmail resourceType resourceName reason).1.success = false) :
    (requestAccess now st userEmail resourceType resourceName reason).2 = st := by
  unfold requestAccess at h ⊢
  rcases hfp : st.access_policies.find? (fun row =>
      row.get "resource_type" == some resourceType &&
      row.get "resource_name" == some resourceName) with _ | policy
  · simp [hfp]
  rcases hfu : st.employees.find? (fun row => row.get "email" == some userEmail) with _ | user
  · simp [hfp, hfu]
  simp only [hfp, hfu] at h ⊢
  by_cases hra : (policy.get "requires_approval" == some "true") = true
  · simp [hra] at h
  · simp only [hra, if_false, Bool.false_eq_true] at h ⊢
    by_cases hc : evalConditions (policy.get "auto_approve_conditions") user = true
    · simp [hc] at h
    · simp [hc]

/-- Claim C9 witness: a denial on the empty store (no policy) leaves the
store untouched. -/
theorem requestAccess_denial_pure_witness :
    (requestAccess 3 emptyState "alice@company.com" "database" "production_db" "debug").1.success = false
    ∧ (requestAccess 3 emptyState "alice@company.com" "database" "production_db" "debug").2 = emptyState :=
  ⟨by decide,
   requestAccess_denial_pure 3 emptyState "alice@company.com" "database" "production_db"
     "debug" (by decide)⟩

/-- Claim C10: if the IP already has an active whitelist row, `whitelistIP`
fails and appends no whitelist row — and when the user exists with training
complete, the failure is the already-whitelisted error. -/
theorem whitelistIP_duplicate (eid : String) (now : Nat) (st : SysState)
    (userEmail ip reason : String)
    (h : checkIPWhitelist st ip = true) :
    (whitelistIP eid now st userEmail ip reason).1.success = false
    ∧ (whitelistIP eid now st userEmail ip reason).2.ip_whitelist = st.ip_whitelist
    ∧ (∀ user, st.employees.find? (fun row => row.get "email" == some userEmail)
          = some user →
        user.get "security_training_complete" = some "true" →
        (whitelistIP eid now st userEmail ip reason).1.error =
          some ("IP " ++ ip ++ " is already whitelisted")) := by
  unfold whitelistIP
  dsimp only
  split
  case h_1 heq =>
    refine ⟨rfl, rfl, ?_⟩
    intro user hfind htr
    exact absurd (heq.symm.trans hfind) (by simp)
  case h_2 user heq =>
    split
    case isTrue htr =>
      refine ⟨rfl, rfl, ?_⟩
      intro user' hfind htr'
      have : user' = user := by
        have := heq.symm.trans hfind
        exact (Option.some_inj.mp this).symm
      subst this
      rw [htr'] at htr
      simp at htr
    case isFalse htr =>
      have hc : checkIPWhitelist
          (logIPWhitelist eid now userEmail ip "WHITELISTED" "PENDING" (some reason) st)
          ip = true := h
      rw [if_pos hc]
      exact ⟨rfl, rfl, fun _ _ _ => rfl⟩

/-- Claim C10 witness: whitelisting 203.0.113.7 again for a trained user
fails with the already-whitelisted error and appends nothing. -/
theorem whitelistIP_duplicate_witness :
    (whitelistIP "AUDIT-4-WW" 4 wlState "eve@company.com" "203.0.113.7" "wfh").1.success = false
    ∧ (whitelistIP "AUDIT-4-WW" 4 wlState "eve@company.com" "203.0.113.7" "wfh").2.ip_whitelist
        = wlState.ip_whitelist
    ∧ (∀ user, wlState.employees.find? (fun row => row.get "email" == some "eve@company.com")
          = some user →
        user.get "security_training_complete" = some "true" →
        (whitelistIP "AUDIT-4-WW" 4 wlState "eve@company.com" "203.0.113.7" "wfh").1.error =
          some ("IP " ++ "203.0.113.7" ++ " is already whitelisted")) :=
  whitelistIP_duplicate "AUDIT-4-WW" 4 wlState "eve@company.com" "203.0.113.7" "wfh"
    (by decide)

end OneStop
